import Mathlib

/-
Shallow embedding of the roygbiv interactive event editor core:
geometry primitives, hit-testing over the drawn-element list, the
SelectBoxBehavior state machine, the viewport transform, the quantized
scale mapper, drag-move event updates and extents computation.

Numbers are modelled as rationals (exact arithmetic standing in for JS
doubles). Sources: the unnamed App module (hit-testing, SelectBoxBehavior)
and src/Roygbiv.js (quantizers, onDragMove, getExtents). Modules the
repository snapshot does not include (Vector2.js, Rect.js, viewport.js,
the scale mapper in utils.js, getSelectionBox in selection.js) are
modelled from the spec, as marked on each such definition.
-/

namespace Roygbiv

/-- Modelled from the spec: `Vector2` (`{x, y}`), a 2D vector value type
with componentwise arithmetic; its source file is absent from the
repository snapshot. -/
structure Vector2 where
  x : ℚ
  y : ℚ
  deriving DecidableEq

/-- Componentwise subtraction, modelling `Vector2.prototype.sub` /
`clone().sub(other)`. -/
def Vector2.sub (a b : Vector2) : Vector2 :=
  ⟨a.x - b.x, a.y - b.y⟩

/-- Modelled from the spec: `Rect` (`{position, size}`), an axis-aligned
rectangle; its source file is absent from the repository snapshot. -/
structure Rect where
  position : Vector2
  size : Vector2
  deriving DecidableEq

/-- Modelled from the spec: `Rect.containsPoint` with half-open
semantics — a point exactly on the far edge is NOT contained. -/
def Rect.containsPoint (r : Rect) (p : Vector2) : Bool :=
  decide (r.position.x ≤ p.x) && decide (p.x < r.position.x + r.size.x) &&
  decide (r.position.y ≤ p.y) && decide (p.y < r.position.y + r.size.y)

/-- Modelled from the spec: `Rect.intersectsRect`, the axis-aligned
overlap test; two rects sharing only an edge do NOT intersect. -/
def Rect.intersectsRect (a b : Rect) : Bool :=
  decide (a.position.x < b.position.x + b.size.x) &&
  decide (b.position.x < a.position.x + a.size.x) &&
  decide (a.position.y < b.position.y + b.size.y) &&
  decide (b.position.y < a.position.y + a.size.y)

/-- Modelled from the spec: `getSelectionBox` from the absent
`selection.js`: the axis-aligned rectangle between anchor and current
point, order-independent of drag direction. -/
def getSelectionBox (a b : Vector2) : Rect :=
  ⟨⟨min a.x b.x, min a.y b.y⟩, ⟨|a.x - b.x|, |a.y - b.y|⟩⟩

/-- One entry of the drawn-element list (`{rect, object}`), rebuilt each
render frame; `α` is the opaque event-object type. -/
structure DrawnElement (α : Type) where
  rect : Rect
  object : α

/-- Point hit-test from the App module: iterate the drawn elements in
reverse index order (frontmost first) and return the object of the first
rect containing the point; `none` when no rect contains it. The head of
the list is index 0, so the recursion consults the tail (the
higher-index, more recently drawn elements) before the head. -/
def getIntersectingEvent {α : Type} (point : Vector2) :
    List (DrawnElement α) → Option α
  | [] => none
  | drawnEl :: rest =>
    match getIntersectingEvent point rest with
    | some o => some o
    | none =>
      if drawnEl.rect.containsPoint point then some drawnEl.object else none

/-- Box hit-test from the App module: iterate the drawn elements in
reverse index order and push the object of every rect intersecting the
query rect. Higher-index (frontmost) hits therefore precede the head. -/
def findIntersectingEvents {α : Type} (rect : Rect) :
    List (DrawnElement α) → List α
  | [] => []
  | drawnEl :: rest =>
    findIntersectingEvents rect rest ++
      (if drawnEl.rect.intersectsRect rect then [drawnEl.object] else [])

/-- Mutable fields of the App module's `SelectBoxBehavior` class:
`selectionStart`, `selectionEnd`, `selecting`, and `enabled` (which is
`undefined` until the first `setEnabled` call, modelled as `Option Bool`
with initial value `none`). -/
structure SBState where
  selectionStart : Vector2
  selectionEnd : Vector2
  selecting : Bool
  enabled : Option Bool
  deriving DecidableEq

/-- Initial `SelectBoxBehavior` state: zero vectors (the `new Vector2()`
default), not selecting, `enabled` undefined. -/
def sbInitial : SBState :=
  ⟨⟨0, 0⟩, ⟨0, 0⟩, false, none⟩

/-- Input events delivered to `SelectBoxBehavior`: the four bound mouse
listeners (each mouse event carrying its canvas-local position where the
handler reads it) plus `setEnabled` calls. -/
inductive SBEvent where
  | mouseDown (p : Vector2)
  | mouseUp
  | mouseMove (p : Vector2)
  | mouseOut
  | setEnabled (e : Bool)

/-- Observable effects of one `SelectBoxBehavior` handler invocation:
`renderedBox = some b` when `selectionBox.render` was called with box `b`
(`some none` meaning `render(null)`, i.e. the visual box cleared), and
`selectRectCall = some r` when `onSelectRect(r)` was invoked. -/
structure SBOutput where
  renderedBox : Option (Option Rect)
  selectRectCall : Option Rect
  deriving DecidableEq

/-- Output of a handler that performed no observable effect. -/
def noOutput : SBOutput :=
  ⟨none, none⟩

/-- One handler invocation of `SelectBoxBehavior`, directly transcribing
the class's `onMouseDown`, `onMouseUp`, `onMouseMove`, `onMouseOut` and
`setEnabled` bodies. Note 1: `onMouseUp` and `onMouseOut` guard only on
`enabled` (the JS `if (!this.enabled) return` is false exactly when
`enabled === true`), while `onMouseMove` guards only on `selecting`.
Note 2: `setEnabled` is a no-op when the flag is unchanged, and calls
`render(null)` only when disabling. -/
def sbStep (s : SBState) : SBEvent → SBState × SBOutput
  | .mouseDown p =>
    if s.enabled = some true then
      ({ s with selecting := true, selectionStart := p, selectionEnd := p },
        noOutput)
    else (s, noOutput)
  | .mouseUp =>
    if s.enabled = some true then
      ({ s with selecting := false },
        { renderedBox := some none,
          selectRectCall :=
            some (getSelectionBox s.selectionStart s.selectionEnd) })
    else (s, noOutput)
  | .mouseMove p =>
    if s.selecting then
      ({ s with selectionEnd := p },
        { renderedBox := some (some (getSelectionBox s.selectionStart p)),
          selectRectCall := none })
    else (s, noOutput)
  | .mouseOut =>
    if s.enabled = some true then
      ({ s with selecting := false },
        { renderedBox := some none, selectRectCall := none })
    else (s, noOutput)
  | .setEnabled e =>
    if s.enabled = some e then (s, noOutput)
    else
      ({ s with enabled := some e },
        { renderedBox := if e then none else some none,
          selectRectCall := none })

/-- Run a sequence of events through `sbStep`, collecting the per-event
outputs in delivery order. -/
def sbRun : SBState → List SBEvent → SBState × List SBOutput
  | s, [] => (s, [])
  | s, e :: rest =>
    let step := sbStep s e
    let next := sbRun step.1 rest
    (next.1, step.2 :: next.2)

/-- Modelled from the spec: `ViewportState` (`{offset, zoom}`) from the
absent `viewport.js`. -/
structure ViewportState where
  offset : Vector2
  zoom : Vector2
  deriving DecidableEq

/-- Modelled from the spec: `positionToScreen(worldPoint)` =
`(worldPoint − offset) * zoom` componentwise. -/
def positionToScreen (s : ViewportState) (p : Vector2) : Vector2 :=
  ⟨(p.x - s.offset.x) * s.zoom.x, (p.y - s.offset.y) * s.zoom.y⟩

/-- Modelled from the spec: `positionFromScreen`, the exact inverse of
`positionToScreen`: divide by zoom componentwise, then add the offset. -/
def positionFromScreen (s : ViewportState) (p : Vector2) : Vector2 :=
  ⟨p.x / s.zoom.x + s.offset.x, p.y / s.zoom.y + s.offset.y⟩

/-- Modelled from the spec: `sizeXFromScreen(dx)`, the single-axis
inverse size transform used by drag deltas (no offset: sizes are
translation-invariant). -/
def sizeXFromScreen (s : ViewportState) (dx : ℚ) : ℚ :=
  dx / s.zoom.x

/-- Modelled from the spec: `sizeYFromScreen(dy)`, as `sizeXFromScreen`
for the y axis. -/
def sizeYFromScreen (s : ViewportState) (dy : ℚ) : ℚ :=
  dy / s.zoom.y

/-- JS `Math.round`: round half toward positive infinity. -/
def roundHalfUp (v : ℚ) : ℤ :=
  ⌊v + 1 / 2⌋

/-- Modelled from the spec: the calibration data of
`scaleDiscreteQuantized` from the absent `utils.js` — two calibration
points per axis (a two-point linear fit) plus a `stepSize`. Both call
sites in src/Roygbiv.js use `Math.round` as the rounding policy, so the
policy is fixed to `roundHalfUp`. -/
structure QuantizedScale where
  domainMin : ℚ
  domainMax : ℚ
  rangeMin : ℚ
  rangeMax : ℚ
  stepSize : ℚ

/-- Modelled from the spec: mapping domain→range (`to(rangeAlias, v)`)
applies the linear transform and then snaps the result to the nearest
multiple of `stepSize` using the rounding policy. -/
def QuantizedScale.toRange (q : QuantizedScale) (v : ℚ) : ℚ :=
  let mapped :=
    (v - q.domainMin) * (q.rangeMax - q.rangeMin) / (q.domainMax - q.domainMin)
      + q.rangeMin
  (roundHalfUp (mapped / q.stepSize) : ℚ) * q.stepSize

/-- Modelled from the spec: mapping range→domain (`to(domainAlias, v)`)
applies only the inverse linear transform; no snapping occurs (the
domain is continuous). -/
def QuantizedScale.toDomain (q : QuantizedScale) (v : ℚ) : ℚ :=
  (v - q.rangeMin) * (q.domainMax - q.domainMin) / (q.rangeMax - q.rangeMin)
    + q.domainMin

/-- Constant `TIMELINE_ROW_HEIGHT = 20` from src/Roygbiv.js. -/
def TIMELINE_ROW_HEIGHT : ℚ := 20

/-- Constant `QUARTER_NOTE_WIDTH = 10` from src/Roygbiv.js. -/
def QUARTER_NOTE_WIDTH : ℚ := 10

/-- Constant `scaleDegrees = range(7)` from src/Roygbiv.js. -/
def scaleDegrees : List ℕ :=
  List.range 7

/-- The `quantizerY` of src/Roygbiv.js: pixels (unzoomed) to scale
degrees; domain `[0, (scaleDegrees.length - 1) * TIMELINE_ROW_HEIGHT]`,
range `[scaleDegrees[0], scaleDegrees[scaleDegrees.length - 1]]` =
`[0, 6]`, stepSize 1, round = Math.round. -/
def quantizerY : QuantizedScale :=
  ⟨0, ((scaleDegrees.length : ℚ) - 1) * TIMELINE_ROW_HEIGHT,
    0, (scaleDegrees.length : ℚ) - 1, 1⟩

/-- The `quantizerX` of src/Roygbiv.js: pixels (unzoomed) to quarter
notes; domain `[0, QUARTER_NOTE_WIDTH]`, range `[0, 1]`, stepSize 1,
round = Math.round. -/
def quantizerX : QuantizedScale :=
  ⟨0, QUARTER_NOTE_WIDTH, 0, 1, 1⟩

/-- A domain event of src/Roygbiv.js: `{id, degree, start, duration}`. -/
structure MusicEvent where
  id : ℕ
  degree : ℚ
  start : ℚ
  duration : ℚ
  deriving DecidableEq

/-- Lookup in `draggedEventsMap = new Map(draggedEvents.map(ev =>
[ev.id, ev]))`: a JS Map keeps the last entry set for a key, so the
lookup finds the last list element with the given id. `has` is modelled
as this lookup being `some`. -/
def draggedLookup (dragged : List MusicEvent) (evId : ℕ) : Option MusicEvent :=
  dragged.reverse.find? (fun d => d.id == evId)

/-- The `onDragMove` callback of src/Roygbiv.js: `delta = pos.to −
pos.from` (screen delta since drag start); each event whose id is in the
dragged map gets `start = eventBeforeDrag.start + quantizerX.to(
quarterNotes, viewport.sizeXFromScreen(delta.x))` and `degree =
eventBeforeDrag.degree + quantizerY.to(scaleDegrees,
viewport.sizeYFromScreen(delta.y))`, where `eventBeforeDrag` is the copy
of the event taken at drag start; all other events map to themselves. -/
def onDragMove (vp : ViewportState) (draggedEvents : List MusicEvent)
    (posFrom posTo : Vector2) (events : List MusicEvent) : List MusicEvent :=
  let delta := posTo.sub posFrom
  events.map fun ev =>
    match draggedLookup draggedEvents ev.id with
    | some eventBeforeDrag =>
      let deltaXQuantized := quantizerX.toRange (sizeXFromScreen vp delta.x)
      let deltaYQuantized := quantizerY.toRange (sizeYFromScreen vp delta.y)
      { ev with
        start := eventBeforeDrag.start + deltaXQuantized,
        degree := eventBeforeDrag.degree + deltaYQuantized }
    | none => ev

/-- Result record of `getExtents` from src/Roygbiv.js; the field `stop`
models the source field `end` (a Lean keyword). -/
structure Extents where
  start : ℚ
  stop : ℚ
  size : ℚ
  minDegree : ℚ
  maxDegree : ℚ
  deriving DecidableEq

/-- The `getExtents` of src/Roygbiv.js. The source seeds the start/end
reductions with `Infinity` / `-Infinity`; on the nonempty branch this
equals seeding the fold over the tail with the head's value, which is
how it is rendered here (rationals have no infinities). The
minDegree/maxDegree reductions are seeded with the finite values `0` and
`scaleDegrees.length - 1` exactly as in the source. -/
def getExtents : List MusicEvent → Extents
  | [] =>
    ⟨0, 0, 0, 0, (scaleDegrees.length : ℚ) - 1⟩
  | ev0 :: rest =>
    let minDegree :=
      (ev0 :: rest).foldl (fun acc ev => min acc ev.degree) 0
    let maxDegree :=
      (ev0 :: rest).foldl (fun acc ev => max acc ev.degree)
        ((scaleDegrees.length : ℚ) - 1)
    let start := rest.foldl (fun acc ev => min acc ev.start) ev0.start
    let stop :=
      rest.foldl (fun acc ev => max acc (ev.start + ev.duration))
        (ev0.start + ev0.duration)
    ⟨start, stop, stop - start, minDegree, maxDegree⟩

/-- Concrete SelectBoxBehavior state right after the first
`setEnabled(true)` call: the behavior is enabled but idle (`selecting`
false), with the selection anchors still at their initial zero values. -/
def sbAfterEnable : SBState :=
  (sbStep sbInitial (SBEvent.setEnabled true)).1

/-- Concrete event trace: enable, start a selection at (10,10), drag to
(50,50), leave the surface (mouse-out), then mouse-up back on the
surface without any new mouse-down. -/
def c4Trace : List SBEvent :=
  [SBEvent.setEnabled true, SBEvent.mouseDown ⟨10, 10⟩,
   SBEvent.mouseMove ⟨50, 50⟩, SBEvent.mouseOut, SBEvent.mouseUp]

/-- Concrete SelectBoxBehavior state mid-gesture: enabled and selecting,
with a box dragged from (10,10) to (50,50). -/
def sbMidGesture : SBState :=
  ⟨⟨10, 10⟩, ⟨50, 50⟩, true, some true⟩

/-- Concrete viewport with zoom 1 on both axes and no pan offset. -/
def vpUnit : ViewportState :=
  ⟨⟨0, 0⟩, ⟨1, 1⟩⟩

/-- Concrete viewport for drag demos: zoom 1, no offset. -/
def vpDemo : ViewportState :=
  ⟨⟨0, 0⟩, ⟨1, 1⟩⟩

/-- Concrete viewport with a nonzero offset and distinct per-axis zooms,
for the round-trip witness. -/
def vpRound : ViewportState :=
  ⟨⟨3, 4⟩, ⟨2, 5⟩⟩

/-- Concrete event at world start 4, degree 5 (the spec's drag
scenario). -/
def evC7 : MusicEvent :=
  ⟨0, 5, 4, 1⟩

/-- Concrete dragged event for the drag-move witnesses. -/
def evDemo : MusicEvent :=
  ⟨1, 5, 4, 1⟩

/-- Concrete event whose id differs from `evDemo`'s. -/
def evOther : MusicEvent :=
  ⟨2, 1, 0, 1⟩

/-- Concrete nonempty event list for the extents witness. -/
def demoEvents : List MusicEvent :=
  [⟨0, 3, 4, 1⟩, ⟨1, 9, 0, 2⟩]

/-- Concrete drawn rectangle at (0,0) of size 2×2. -/
def demoRectA : Rect :=
  ⟨⟨0, 0⟩, ⟨2, 2⟩⟩

/-- Concrete drawn rectangle at (1,1) of size 2×2, overlapping
`demoRectA`. -/
def demoRectB : Rect :=
  ⟨⟨1, 1⟩, ⟨2, 2⟩⟩

/-- Concrete drawn-element list with two overlapping rectangles;
`demoRectB` is drawn last (highest index, frontmost). -/
def demoElems : List (DrawnElement ℕ) :=
  [⟨demoRectA, 0⟩, ⟨demoRectB, 1⟩]

/-- Concrete box-selection query rectangle covering both demo
rectangles. -/
def demoQuery : Rect :=
  ⟨⟨0, 0⟩, ⟨3, 3⟩⟩

/-- Unfolding equation for `getIntersectingEvent` on a cons cell: the
tail (the more recently drawn elements) is consulted first. -/
theorem getIntersectingEvent_cons {α : Type} (p : Vector2) (el : DrawnElement α)
    (rest : List (DrawnElement α)) :
    getIntersectingEvent p (el :: rest) =
      match getIntersectingEvent p rest with
      | some o => some o
      | none =>
        if el.rect.containsPoint p then some el.object else none := rfl

/-- C1: for every point and every drawn-element list, point hit-testing
(`getIntersectingEvent`) returns `none` exactly when no drawn rect
contains the point, and whenever the rect at index `i` contains the
point and no higher-index (more recently drawn) rect does, it returns
the object at index `i` — the topmost containing rectangle wins. -/
theorem getIntersectingEvent_topmost {α : Type} (p : Vector2)
    (elems : List (DrawnElement α)) :
    (getIntersectingEvent p elems = none ↔
      ∀ el ∈ elems, el.rect.containsPoint p = false) ∧
    (∀ i : ℕ, ∀ hi : i < elems.length,
      (elems[i]).rect.containsPoint p = true →
      (∀ j : ℕ, ∀ hj : j < elems.length, i < j →
        (elems[j]).rect.containsPoint p = false) →
      getIntersectingEvent p elems = some (elems[i]).object) := by
  induction elems with
  | nil =>
    refine ⟨by simp [getIntersectingEvent], ?_⟩
    intro i hi
    exact absurd hi (Nat.not_lt_zero i)
  | cons el rest ih =>
    constructor
    · cases h : getIntersectingEvent p rest with
      | some o =>
        have hne : ¬ (∀ el' ∈ rest, el'.rect.containsPoint p = false) := by
          intro hall
          rw [(ih.1).mpr hall] at h
          exact Option.noConfusion h
        constructor
        · intro hnone
          rw [getIntersectingEvent_cons, h] at hnone
          exact absurd hnone (by simp)
        · intro hall
          exact absurd (fun el' hm => hall el' (List.mem_cons_of_mem _ hm)) hne
      | none =>
        rw [getIntersectingEvent_cons, h]
        by_cases hc : el.rect.containsPoint p
        · simp only [hc, if_true]
          constructor
          · intro hfalse
            exact absurd hfalse (by simp)
          · intro hall
            have := hall el (List.mem_cons_self el rest)
            rw [hc] at this
            exact absurd this (by simp)
        · have hc' : el.rect.containsPoint p = false := by
            simpa using hc
          simp only [hc', if_false]
          constructor
          · intro _ el' hm
            rcases List.mem_cons.mp hm with rfl | hm'
            · exact hc'
            · exact (ih.1).mp h el' hm'
          · intro _
            rfl
    · intro i hi hcont htop
      cases i with
      | zero =>
        have hrest : ∀ el' ∈ rest, el'.rect.containsPoint p = false := by
          intro el' hm
          obtain ⟨j, hj, rfl⟩ := List.mem_iff_getElem.mp hm
          have := htop (j + 1) (by simpa using Nat.succ_lt_succ hj) (Nat.succ_pos j)
          simpa using this
        have hnone := (ih.1).mpr hrest
        rw [getIntersectingEvent_cons, hnone]
        simp only [List.getElem_cons_zero] at hcont ⊢
        simp [hcont]
      | succ i' =>
        have hi' : i' < rest.length := by
          simpa using Nat.lt_of_succ_lt_succ hi
        have hcont' : (rest[i']).rect.containsPoint p = true := by
          simpa using hcont
        have htop' : ∀ j : ℕ, ∀ hj : j < rest.length, i' < j →
            (rest[j]).rect.containsPoint p = false := by
          intro j hj hij
          have := htop (j + 1) (by simpa using Nat.succ_lt_succ hj)
            (Nat.succ_lt_succ hij)
          simpa using this
        have hsome := (ih.2) i' hi' hcont' htop'
        rw [getIntersectingEvent_cons, hsome]
        simp

/-- Witness for C1: the point (3/2, 3/2) lies inside both demo
rectangles, and hit-testing returns the object of the later-drawn one. -/
theorem getIntersectingEvent_topmost_witness :
    getIntersectingEvent ⟨3 / 2, 3 / 2⟩ demoElems = some 1 := by
  have h := (getIntersectingEvent_topmost ⟨3 / 2, 3 / 2⟩ demoElems).2 1
    (by norm_num [demoElems])
    (by norm_num [demoElems, demoRectB, Rect.containsPoint])
    (by intro j hj hij; simp [demoElems] at hj; omega)
  simpa [demoElems] using h

/-- Characterization of `findIntersectingEvents`: it is the
object-projection of the intersecting drawn elements in reverse
(frontmost-first) order. -/
theorem findIntersectingEvents_eq_filter {α : Type} (r : Rect)
    (elems : List (DrawnElement α)) :
    findIntersectingEvents r elems =
      ((elems.filter (fun el => el.rect.intersectsRect r)).map
        (fun el => el.object)).reverse := by
  induction elems with
  | nil => rfl
  | cons el rest ih =>
    by_cases hb : el.rect.intersectsRect r
    · simp [findIntersectingEvents, List.filter_cons, hb, ih]
    · have hb' : el.rect.intersectsRect r = false := by simpa using hb
      simp [findIntersectingEvents, List.filter_cons, hb', ih]

/-- C2: for every query rectangle and drawn-element list with
pairwise-distinct objects, box hit-testing (`findIntersectingEvents`)
returns exactly the objects whose rects intersect the query: every
intersecting object appears, only intersecting objects appear, and no
object appears twice. -/
theorem findIntersectingEvents_exact {α : Type} (r : Rect)
    (elems : List (DrawnElement α))
    (hnd : (elems.map (fun el => el.object)).Nodup) :
    (∀ el ∈ elems, el.rect.intersectsRect r = true →
      el.object ∈ findIntersectingEvents r elems) ∧
    (∀ o ∈ findIntersectingEvents r elems,
      ∃ el ∈ elems, el.object = o ∧ el.rect.intersectsRect r = true) ∧
    (findIntersectingEvents r elems).Nodup := by
  rw [findIntersectingEvents_eq_filter]
  refine ⟨?_, ?_, ?_⟩
  · intro el hmem hint
    simp only [List.mem_reverse, List.mem_map]
    exact ⟨el, List.mem_filter.mpr ⟨hmem, hint⟩, rfl⟩
  · intro o ho
    simp only [List.mem_reverse, List.mem_map] at ho
    obtain ⟨el, hmem, rfl⟩ := ho
    obtain ⟨hm, hint⟩ := List.mem_filter.mp hmem
    exact ⟨el, hm, rfl, hint⟩
  · rw [List.nodup_reverse]
    exact hnd.sublist ((List.filter_sublist elems).map (fun el => el.object))

/-- Witness for C2: the demo elements have distinct objects, and the box
hit-test result over them is duplicate-free. -/
theorem findIntersectingEvents_exact_witness :
    ((demoElems.map (fun el => el.object)).Nodup) ∧
    (findIntersectingEvents demoQuery demoElems).Nodup :=
  ⟨by simp [demoElems],
   (findIntersectingEvents_exact demoQuery demoElems (by simp [demoElems])).2.2⟩

/-- Unfolding equation for `sbRun` on a cons cell. -/
theorem sbRun_cons (s : SBState) (e : SBEvent) (rest : List SBEvent) :
    sbRun s (e :: rest) =
      ((sbRun (sbStep s e).1 rest).1,
        (sbStep s e).2 :: (sbRun (sbStep s e).1 rest).2) := rfl

/-- C3 (code bug evidence): with the behavior enabled but idle
(`selecting = false`, no mouse-down having occurred), a mouse-up still
invokes `onSelectRect` — with the degenerate box built from the initial
zero anchors — because `onMouseUp` guards only on `enabled`, never on
`selecting`. The claim's idle/selecting state machine says an idle
mouse-up must report no selection. -/
theorem selectBox_mouseUp_in_idle_commits :
    sbAfterEnable.selecting = false ∧
    (sbStep sbAfterEnable SBEvent.mouseUp).2.selectRectCall =
      some ⟨⟨0, 0⟩, ⟨0, 0⟩⟩ := by
  constructor
  · simp [sbAfterEnable, sbStep, sbInitial]
  · simp [sbAfterEnable, sbStep, sbInitial, getSelectionBox]

/-- C4 (code bug evidence): on the trace enable → down(10,10) →
move(50,50) → out → up, the mouse-out event does clear the visual box
and commits nothing (fourth output), but the subsequent mouse-up, with
no new mouse-down, invokes `onSelectRect` with exactly the aborted
gesture's rectangle (position (10,10), size (40,40)) — the stale anchors
survive the abort because `onMouseUp` never checks `selecting`. -/
theorem selectBox_abortedGesture_laterCommit :
    (sbRun sbInitial c4Trace).2 =
      [⟨none, none⟩, ⟨none, none⟩,
       ⟨some (some ⟨⟨10, 10⟩, ⟨40, 40⟩⟩), none⟩,
       ⟨some none, none⟩,
       ⟨some none, some ⟨⟨10, 10⟩, ⟨40, 40⟩⟩⟩] := by
  have h1 : sbStep sbInitial (SBEvent.setEnabled true) =
      (⟨⟨0, 0⟩, ⟨0, 0⟩, false, some true⟩, ⟨none, none⟩) := by
    simp [sbStep, sbInitial, Prod.ext_iff]
  have h2 : sbStep ⟨⟨0, 0⟩, ⟨0, 0⟩, false, some true⟩
      (SBEvent.mouseDown ⟨10, 10⟩) =
      (⟨⟨10, 10⟩, ⟨10, 10⟩, true, some true⟩, ⟨none, none⟩) := by
    simp [sbStep, Prod.ext_iff, noOutput]
  have h3 : sbStep ⟨⟨10, 10⟩, ⟨10, 10⟩, true, some true⟩
      (SBEvent.mouseMove ⟨50, 50⟩) =
      (⟨⟨10, 10⟩, ⟨50, 50⟩, true, some true⟩,
        ⟨some (some ⟨⟨10, 10⟩, ⟨40, 40⟩⟩), none⟩) := by
    norm_num [sbStep, Prod.ext_iff, getSelectionBox, abs_of_nonpos]
  have h4 : sbStep ⟨⟨10, 10⟩, ⟨50, 50⟩, true, some true⟩ SBEvent.mouseOut =
      (⟨⟨10, 10⟩, ⟨50, 50⟩, false, some true⟩, ⟨some none, none⟩) := by
    simp [sbStep, Prod.ext_iff]
  have h5 : sbStep ⟨⟨10, 10⟩, ⟨50, 50⟩, false, some true⟩ SBEvent.mouseUp =
      (⟨⟨10, 10⟩, ⟨50, 50⟩, false, some true⟩,
        ⟨some none, some ⟨⟨10, 10⟩, ⟨40, 40⟩⟩⟩) := by
    norm_num [sbStep, Prod.ext_iff, getSelectionBox, abs_of_nonpos]
  simp [c4Trace, sbRun_cons, sbRun, h1, h2, h3, h4, h5]

/-- C5: disabling the select-box behavior mid-gesture (enabled and
selecting) clears the in-progress visual box (`render(null)`) and
leaves the behavior disabled, and while any state remains disabled a
mouse-up invokes no `onSelectRect` and keeps the behavior disabled. -/
theorem selectBox_disable_midGesture (s : SBState)
    (hen : s.enabled = some true) (hsel : s.selecting = true) :
    (sbStep s (SBEvent.setEnabled false)).2.renderedBox = some none ∧
    (sbStep s (SBEvent.setEnabled false)).1.enabled = some false ∧
    ∀ t : SBState, t.enabled = some false →
      (sbStep t SBEvent.mouseUp).2.selectRectCall = none ∧
      (sbStep t SBEvent.mouseUp).1.enabled = some false := by
  refine ⟨?_, ?_, ?_⟩
  · simp [sbStep, hen]
  · simp [sbStep, hen]
  · intro t ht
    constructor <;> simp [sbStep, ht, noOutput]

/-- Witness for C5: disabling the concrete mid-gesture state clears the
box, and the subsequent mouse-up in the resulting disabled state
commits no selection. -/
theorem selectBox_disable_midGesture_witness :
    (sbStep sbMidGesture (SBEvent.setEnabled false)).2.renderedBox = some none ∧
    (sbStep (sbStep sbMidGesture (SBEvent.setEnabled false)).1
      SBEvent.mouseUp).2.selectRectCall = none := by
  have h := selectBox_disable_midGesture sbMidGesture rfl rfl
  exact ⟨h.1, (h.2.2 _ h.2.1).1⟩

/-- C6: for every drag-move, each dragged event's new position is the
pre-drag snapshot's position plus the quantized world-space delta since
drag start — `start = snapshot.start + quantizeX(worldDeltaX)` and
`degree = snapshot.degree + quantizeY(worldDeltaY)` — never the event's
live, already-mutated position. -/
theorem onDragMove_usesSnapshot (vp : ViewportState) (dragged : List MusicEvent)
    (posFrom posTo : Vector2) (events : List MusicEvent) (i : ℕ)
    (ev snap : MusicEvent)
    (hev : events[i]? = some ev)
    (hsnap : draggedLookup dragged ev.id = some snap) :
    (onDragMove vp dragged posFrom posTo events)[i]? =
      some { ev with
        start := snap.start +
          quantizerX.toRange (sizeXFromScreen vp (posTo.x - posFrom.x)),
        degree := snap.degree +
          quantizerY.toRange (sizeYFromScreen vp (posTo.y - posFrom.y)) } := by
  simp only [onDragMove, List.getElem?_map, hev]
  simp [hsnap, Vector2.sub]

/-- Witness for C6: dragging the demo event (start 4, degree 5) by
screen delta (30, 20) at zoom 1 yields start 4 + 3 = 7 and degree
5 + 1 = 6. -/
theorem onDragMove_usesSnapshot_witness :
    (onDragMove vpDemo [evDemo] ⟨0, 0⟩ ⟨30, 20⟩ [evDemo])[0]? =
      some ⟨1, 6, 7, 1⟩ := by
  have h := onDragMove_usesSnapshot vpDemo [evDemo] ⟨0, 0⟩ ⟨30, 20⟩ [evDemo] 0
    evDemo evDemo rfl rfl
  rw [h]
  norm_num [evDemo, vpDemo, quantizerX, quantizerY, QuantizedScale.toRange,
    roundHalfUp, sizeXFromScreen, sizeYFromScreen, QUARTER_NOTE_WIDTH,
    TIMELINE_ROW_HEIGHT, scaleDegrees]

/-- C7 counterexample: with zoom 1, dragging the event at world
(start 4, degree 5) by a screen delta of 2×zoom.x = 2 pixels leaves its
start at 4 — the 2-pixel world delta quantizes to round(2/10) = 0
quarter notes — so the start does not become 6 as the claim states. -/
theorem dragTwoPixels_startStays4 :
    onDragMove vpUnit [evC7] ⟨0, 0⟩ ⟨2, 0⟩ [evC7] = [⟨0, 5, 4, 1⟩] ∧
    (⟨0, 5, 4, 1⟩ : MusicEvent).start ≠ 6 := by
  constructor
  · norm_num [onDragMove, vpUnit, evC7, draggedLookup, quantizerX, quantizerY,
      QuantizedScale.toRange, roundHalfUp, QUARTER_NOTE_WIDTH,
      TIMELINE_ROW_HEIGHT, scaleDegrees, sizeXFromScreen, sizeYFromScreen,
      Vector2.sub, List.find?]
  · norm_num

/-- C7 amended: with zoom 1, dragging that event by a screen delta of
2×QUARTER_NOTE_WIDTH×zoom.x pixels (two quarter notes' worth of pixels)
updates its world start from 4 to 6. -/
theorem dragTwoQuarterNotes_startBecomes6 :
    onDragMove vpUnit [evC7] ⟨0, 0⟩ ⟨2 * QUARTER_NOTE_WIDTH * 1, 0⟩ [evC7] =
      [⟨0, 5, 6, 1⟩] := by
  norm_num [onDragMove, vpUnit, evC7, draggedLookup, quantizerX, quantizerY,
    QuantizedScale.toRange, roundHalfUp, QUARTER_NOTE_WIDTH,
    TIMELINE_ROW_HEIGHT, scaleDegrees, sizeXFromScreen, sizeYFromScreen,
    Vector2.sub, List.find?]

/-- C8: for every viewport state with positive per-axis zoom and every
world point, converting to screen space and back recovers the point
exactly; no quantization occurs at the viewport layer. -/
theorem viewport_roundTrip (s : ViewportState) (p : Vector2)
    (hx : 0 < s.zoom.x) (hy : 0 < s.zoom.y) :
    positionFromScreen s (positionToScreen s p) = p := by
  obtain ⟨px, py⟩ := p
  simp only [positionToScreen, positionFromScreen, Vector2.mk.injEq]
  constructor
  · rw [mul_div_cancel_right₀ _ (ne_of_gt hx), sub_add_cancel]
  · rw [mul_div_cancel_right₀ _ (ne_of_gt hy), sub_add_cancel]

/-- Witness for C8: the round trip at a viewport with offset (3,4) and
zoom (2,5) recovers the point (5,7). -/
theorem viewport_roundTrip_witness :
    positionFromScreen vpRound (positionToScreen vpRound ⟨5, 7⟩) = ⟨5, 7⟩ :=
  viewport_roundTrip vpRound ⟨5, 7⟩ (by norm_num [vpRound]) (by norm_num [vpRound])

/-- Folding min over event degrees never exceeds the seed. -/
theorem foldl_min_degree_le (l : List MusicEvent) (q : ℚ) :
    l.foldl (fun acc ev => min acc ev.degree) q ≤ q := by
  induction l generalizing q with
  | nil => simp
  | cons e rest ih =>
    simp only [List.foldl_cons]
    exact le_trans (ih (min q e.degree)) (min_le_left _ _)

/-- Folding max over event degrees never drops below the seed. -/
theorem le_foldl_max_degree (l : List MusicEvent) (q : ℚ) :
    q ≤ l.foldl (fun acc ev => max acc ev.degree) q := by
  induction l generalizing q with
  | nil => simp
  | cons e rest ih =>
    simp only [List.foldl_cons]
    exact le_trans (le_max_left _ _) (ih (max q e.degree))

/-- C9: for every event list, `getExtents` yields `minDegree ≤ 0` and
`maxDegree ≥ scaleDegrees.length − 1` (= 6), because those reductions
are seeded with 0 and 6 respectively; and on the empty list it returns
start 0, end 0, size 0, minDegree 0, maxDegree 6. -/
theorem getExtents_degreeRange (events : List MusicEvent) :
    (getExtents events).minDegree ≤ 0 ∧
    ((scaleDegrees.length : ℚ) - 1) ≤ (getExtents events).maxDegree ∧
    (events = [] → getExtents events = ⟨0, 0, 0, 0, 6⟩) := by
  cases events with
  | nil =>
    refine ⟨?_, ?_, fun _ => ?_⟩ <;> norm_num [getExtents, scaleDegrees]
  | cons e rest =>
    refine ⟨?_, ?_, fun h => absurd h (by simp)⟩
    · simp only [getExtents]
      exact foldl_min_degree_le _ _
    · simp only [getExtents]
      exact le_foldl_max_degree _ _

/-- Witness for C9: the demo list's minDegree is at most 0, and the
empty list yields the all-default extents record. -/
theorem getExtents_degreeRange_witness :
    (getExtents demoEvents).minDegree ≤ 0 ∧
    getExtents ([] : List MusicEvent) = ⟨0, 0, 0, 0, 6⟩ :=
  ⟨(getExtents_degreeRange demoEvents).1, (getExtents_degreeRange []).2.2 rfl⟩

/-- C10: for every drag-move, an event whose id is not among the
dragged ids maps to itself: the updated list holds the identical event
(same start and degree) at the same index. -/
theorem onDragMove_leavesOthers (vp : ViewportState) (dragged : List MusicEvent)
    (posFrom posTo : Vector2) (events : List MusicEvent) (i : ℕ)
    (ev : MusicEvent)
    (hev : events[i]? = some ev)
    (hnot : draggedLookup dragged ev.id = none) :
    (onDragMove vp dragged posFrom posTo events)[i]? = some ev := by
  simp only [onDragMove, List.getElem?_map, hev]
  simp [hnot]

/-- Witness for C10: dragging `evDemo` leaves the differently-numbered
`evOther` untouched. -/
theorem onDragMove_leavesOthers_witness :
    (onDragMove vpDemo [evDemo] ⟨0, 0⟩ ⟨30, 20⟩ [evOther])[0]? = some evOther :=
  onDragMove_leavesOthers vpDemo [evDemo] ⟨0, 0⟩ ⟨30, 20⟩ [evOther] 0 evOther
    rfl rfl

end Roygbiv
